import Mathlib

/-
  Verification development for the orbiscast IPTV ingestion subsystem
  (src/modules/iptv/index.ts and src/modules/iptv/parsers/xmltv-parser.ts).

  The TypeScript source is shallowly embedded: each translated definition
  mirrors one source function.  Wall-clock timestamps (`created_at`,
  `new Date()`) are abstracted away, since no claim concerns them.
-/

set_option autoImplicit false

namespace Orbiscast

/-! ## Data model (src/interfaces/iptv, as used by the two source files) -/

/-- `ChannelEntry` from the data model.  `created_at` (a wall-clock
timestamp) is omitted from the embedding. -/
structure ChannelEntry where
  xui_id : Nat
  tvg_id : String
  tvg_name : String
  tvg_logo : String
  group_title : String
  url : String
  country : String
  deriving DecidableEq, Repr

/-- `ProgrammeEntry` from the data model.  The ISO string forms of
`start`/`stop` and `created_at` are omitted; `start_timestamp` /
`stop_timestamp` carry the parsed time values. -/
structure ProgrammeEntry where
  start_timestamp : Int
  stop_timestamp : Int
  channel : Option String
  title : String
  description : String
  category : String
  subtitle : String
  episode_num : String
  season : Option Int
  episode : Option Int
  icon : String
  image : String
  date : String
  previously_shown : Bool
  deriving DecidableEq, Repr

/-! ## xml2js element values

An element produced by xml2js is either a bare string or an object whose
text payload (if any) sits in the `_` field.  `XmlText.obj none` models an
object without a `_` field (or with a falsy one). -/

inductive XmlText where
  | str (s : String)
  | obj (text : Option String)
  deriving DecidableEq, Repr

/-- `extractTextContent` (xmltv-parser.ts, lines 229-241): a falsy element
or a missing/falsy `_` field yields `""`; note that a falsy `element._`
(the empty string) also falls through to `""`, which coincides with
`Option.getD`. -/
def extractTextContent : Option XmlText → String
  | none => ""
  | some (XmlText.str s) => s
  | some (XmlText.obj t) => t.getD ""

/-! ## XMLTV channel parsing (parseChannelEntry, xmltv-parser.ts 75-119) -/

/-- Raw channel element as delivered by xml2js: `channel.$?.id`,
`channel['display-name'] || []`, `channel.icon?.[0]?.$?.src`. -/
structure RawChannel where
  id : Option String
  displayNames : List XmlText
  iconSrc : Option String
  deriving DecidableEq, Repr

/-- The JS test `/^\d+$/.test(name)`: non-empty and all digits. -/
def isNumericStr (s : String) : Bool :=
  s ≠ "" && s.data.all Char.isDigit

/-- Numeric value of a list of decimal digit characters
(JS `parseInt` on a digit run). -/
def natOfDigits (ds : List Char) : Nat :=
  ds.foldl (fun n c => n * 10 + (c.toNat - 48)) 0

/-! Structural (kernel-reducible) counterparts of the string operations
the source uses: JS `split` with a single-character separator, finding
the first occurrence of a pattern, `trim`, `startsWith`. -/

/-- JS `s.split(c)` for a single-character separator `c`. -/
def splitOnChar (c : Char) : List Char → List (List Char)
  | [] => [[]]
  | x :: xs =>
    if x = c then [] :: splitOnChar c xs
    else
      match splitOnChar c xs with
      | t :: ts => (x :: t) :: ts
      | [] => [[x]]

/-- Splits at the first occurrence of `pat` (non-empty): returns the
part before it and the part after it, or `none` when `pat` does not
occur. -/
def splitFirst (pat : List Char) : List Char → Option (List Char × List Char)
  | [] => none
  | x :: xs =>
    if pat.isPrefixOf (x :: xs) then some ([], (x :: xs).drop pat.length)
    else
      match splitFirst pat xs with
      | some (pre, post) => some (x :: pre, post)
      | none => none

/-- Whitespace trimming (`String.prototype.trim`). -/
def trimStr (s : String) : String :=
  ⟨(((s.data.dropWhile Char.isWhitespace).reverse).dropWhile Char.isWhitespace).reverse⟩

/-- `line.startsWith('#')`. -/
def startsHash (l : String) : Bool :=
  match l.data with
  | c :: _ => c = '#'
  | [] => false

/-- JS `String.prototype.replace` with a string pattern replaces only
the first occurrence. -/
def replaceFirst (s pat rep : String) : String :=
  match splitFirst pat.data s.data with
  | some (pre, post) => ⟨pre ++ rep.data ++ post⟩
  | none => s

/-- The display-name scan of `parseChannelEntry` (lines 83-93): the two
accumulators are `tvgName` and `channelNumber`, both starting `""`. -/
def scanDisplayNames : List XmlText → String → String → String × String
  | [], tn, cn => (tn, cn)
  | d :: ds, tn, cn =>
    let name := extractTextContent (some d)
    let tn' := if tn = "" then name else tn
    let cn' := if isNumericStr name && cn = "" then name else cn
    scanDisplayNames ds tn' cn'

/-- `parseChannelEntry` (xmltv-parser.ts 75-119).  `streamBase` models
`config.STREAM_BASE_URL` (absent or empty string is falsy). -/
def parseChannelEntry (streamBase : Option String) (c : RawChannel) : ChannelEntry :=
  let channelId := c.id.getD ""
  let scanned := scanDisplayNames c.displayNames "" ""
  let tvgName := scanned.1
  let channelNumber := scanned.2
  let iconSrc := c.iconSrc.getD ""
  let streamUrl :=
    match streamBase with
    | some t => if t ≠ "" && channelNumber ≠ "" then replaceFirst t "{channel}" channelNumber else ""
    | none => ""
  { xui_id := if channelNumber ≠ "" then natOfDigits channelNumber.data else 0
    tvg_id := channelId
    tvg_name := tvgName
    tvg_logo := iconSrc
    group_title := ""
    url := streamUrl
    country := "" }

/-- Spec-side helper: the first element of `l` satisfying `p`, else `""`. -/
def firstSuch (p : String → Bool) (l : List String) : String :=
  ((l.filter p).head?).getD ""

/-- The extracted texts of a channel's display-name elements. -/
def displayTexts (c : RawChannel) : List String :=
  c.displayNames.map (fun d => extractTextContent (some d))

/-! ## Episode numbers (parseEpisodeNumber, xmltv-parser.ts 250-289) -/

/-- One `episode-num` element: `epNum.$?.system` and the text payload
(flattening "bare string" and "object with `_`", which
`extractTextContent` treats identically). -/
structure EpisodeNumElem where
  system : Option String
  text : Option String
  deriving DecidableEq, Repr

/-- Attempt to match the (unanchored) JS regex `/S(\d+)E(\d+)/i` at the
head of the character list: `S`/`s`, a non-empty digit run, `E`/`e`, a
non-empty digit run.  A greedy `\d+` followed by `E` can only succeed by
consuming the whole maximal digit run, so no backtracking is needed. -/
def matchSEAt : List Char → Option (Nat × Nat)
  | [] => none
  | c :: rest =>
    if c = 'S' ∨ c = 's' then
      match rest.span Char.isDigit with
      | (d1, e :: rest2) =>
        if d1 ≠ [] ∧ (e = 'E' ∨ e = 'e') then
          match rest2.span Char.isDigit with
          | (d2, _) => if d2 ≠ [] then some (natOfDigits d1, natOfDigits d2) else none
        else none
      | (_, []) => none
    else none

/-- Leftmost match of `/S(\d+)E(\d+)/i` in the string, as JS
`value.match` finds it. -/
def findSE : List Char → Option (Nat × Nat)
  | [] => none
  | c :: rest =>
    match matchSEAt (c :: rest) with
    | some r => some r
    | none => findSE rest

/-- JS `parseInt(s, 10)`: skip leading whitespace, optional sign, then a
decimal digit run; `NaN` (here `none`) when no digits follow. -/
def parseIntJS (s : List Char) : Option Int :=
  match s.dropWhile Char.isWhitespace with
  | '-' :: rest =>
    match rest.span Char.isDigit with
    | (d, _) => if d = [] then none else some (-(natOfDigits d : Int))
  | '+' :: rest =>
    match rest.span Char.isDigit with
    | (d, _) => if d = [] then none else some (natOfDigits d)
  | cs =>
    match cs.span Char.isDigit with
    | (d, _) => if d = [] then none else some (natOfDigits d)

/-- JS truthiness of the `season` variable (`number | undefined`):
falsy when `undefined` or `0`. -/
def truthyNum : Option Int → Bool
  | none => false
  | some n => n ≠ 0

/-- The loop body of `parseEpisodeNumber` (lines 263-286), with the three
mutable variables `episodeNum`, `season`, `episode` as accumulators. -/
def epLoop : List EpisodeNumElem → String → Option Int → Option Int →
    String × Option Int × Option Int
  | [], en, s, e => (en, s, e)
  | el :: rest, en, s, e =>
    let v := el.text.getD ""
    if el.system = some "onscreen" then
      match findSE v.data with
      | some (a, b) => epLoop rest v (some (a : Int)) (some (b : Int))
      | none => epLoop rest v s e
    else if el.system = some "xmltv_ns" && !truthyNum s then
      let parts := splitOnChar '.' v.data
      if parts.length ≥ 2 && parts.headD [] ≠ [] && (parts.get? 1).getD [] ≠ [] then
        let sp := parseIntJS (parts.headD [])
        let ep := parseIntJS ((parts.get? 1).getD [])
        let s' := match sp with | some n => some (n + 1) | none => s
        let e' := match ep with | some n => some (n + 1) | none => e
        epLoop rest en s' e'
      else epLoop rest en s e
    else epLoop rest en s e

/-- `parseEpisodeNumber` (xmltv-parser.ts 250-289).  `none` models an
absent / non-array `programme['episode-num']`. -/
def parseEpisodeNumber (elems : Option (List EpisodeNumElem)) :
    String × Option Int × Option Int :=
  match elems with
  | none => ("", none, none)
  | some l => epLoop l "" none none

/-! ## Programme parsing (parseProgrammeEntry, xmltv-parser.ts 169-221,
and the collection loops of parseXMLTV / parseXMLTVFull) -/

/-- Raw programme element: attributes `programme.$.start/.stop/.channel`
and the child elements used by the parser.  A missing `$` object behaves
as all three attributes missing (the attribute access throws either
way, and the element is skipped). -/
structure RawProgramme where
  start : Option String
  stop : Option String
  channel : Option String
  title : Option XmlText
  desc : Option XmlText
  category : Option XmlText
  subtitle : Option XmlText
  episodeNum : Option (List EpisodeNumElem)
  iconSrc : Option String
  image : Option XmlText
  date : Option XmlText
  previouslyShown : Option Unit
  deriving DecidableEq, Repr

/-- Modelled from the spec: `parseDate` (src/modules/iptv/utils is not
part of the provided sources).  §4.2 of the spec says timestamps "are
produced as ISO-8601 strings plus truncated epoch-second integers"; the
composite string-to-epoch-seconds conversion is abstracted as a total
parameter `pd` of the programme parser. -/
def DateParse : Type := String → Int

/-- `parseProgrammeEntry` (xmltv-parser.ts 169-221): throws — modelled as
`Except.error` — exactly when `start` or `stop` is absent or empty
(JS falsiness of `startStr` / `stopStr`). -/
def parseProgrammeEntry (pd : DateParse) (p : RawProgramme) :
    Except String ProgrammeEntry :=
  let title := extractTextContent p.title
  let description := extractTextContent p.desc
  let category := extractTextContent p.category
  let subtitle := extractTextContent p.subtitle
  let parsedEp := parseEpisodeNumber p.episodeNum
  let icon := p.iconSrc.getD ""
  let image := extractTextContent p.image
  let date := extractTextContent p.date
  let previouslyShown := p.previouslyShown.isSome
  if p.start.getD "" = "" ∨ p.stop.getD "" = "" then
    Except.error ("Programme missing start/stop times: " ++ title)
  else
    Except.ok
      { start_timestamp := pd (p.start.getD "")
        stop_timestamp := pd (p.stop.getD "")
        channel := p.channel
        title := title
        description := description
        category := category
        subtitle := subtitle
        episode_num := parsedEp.1
        season := parsedEp.2.1
        episode := parsedEp.2.2
        icon := icon
        image := image
        date := date
        previously_shown := previouslyShown }

/-- The per-element try/catch collection loop of `parseXMLTV` (lines
145-153) and `parseXMLTVFull` (lines 50-58): a failing element is logged
and skipped, a successful one is pushed. -/
def collectProgrammes (pd : DateParse) (raws : List RawProgramme) :
    List ProgrammeEntry :=
  raws.foldl
    (fun acc p =>
      match parseProgrammeEntry pd p with
      | Except.ok e => acc ++ [e]
      | Except.error _ => acc)
    []

/-- `Except` success projection. -/
def okOf {ε α : Type} : Except ε α → Option α
  | Except.ok a => some a
  | Except.error _ => none

/-! ## M3U playlist parsing -/

/-- Best-effort `key="value"` extraction from an `#EXTINF:` line: the
text between `key="` and the next `"`. -/
def attrValue (line key : String) : String :=
  match splitFirst (key.data ++ ['=', '"']) line.data with
  | some (_, rest) => ⟨rest.takeWhile (fun c => c ≠ '"')⟩
  | none => ""

/-- Modelled from the spec: `fromPlaylistLine`
(src/modules/iptv/parsers/playlist-parser.ts is not part of the provided
sources).  §4.3 of the spec: best-effort key=value extraction of
`tvg-id`, `tvg-name`, `tvg-logo`, `group-title` and an optional country
tag from the `#EXTINF:` line; any absent attribute defaults to the empty
string, and `url` is left unset. -/
def fromPlaylistLine (line : String) : ChannelEntry :=
  { xui_id := 0
    tvg_id := attrValue line "tvg-id"
    tvg_name := attrValue line "tvg-name"
    tvg_logo := attrValue line "tvg-logo"
    group_title := attrValue line "group-title"
    url := ""
    country := attrValue line "country" }

/-- `line.startsWith('#EXTINF:')`. -/
def isExtinf (l : String) : Bool :=
  "#EXTINF:".data.isPrefixOf l.data

/-- The line-pairing loop of `fillDbChannelsFromPlaylist`
(index.ts 163-172): `pending` is the mutable `channel` variable; an
emitted record gets the trimmed line as its `url`. -/
def pairLoop : List String → Option ChannelEntry → List ChannelEntry
  | [], _ => []
  | l :: ls, pending =>
    if isExtinf l then pairLoop ls (some (fromPlaylistLine l))
    else
      match pending with
      | some c =>
        if !startsHash l && trimStr l ≠ "" then
          { c with url := trimStr l } :: pairLoop ls none
        else pairLoop ls (some c)
      | none => pairLoop ls none

/-- The playlist channel list as produced from the split lines. -/
def parsePlaylistChannels (lines : List String) : List ChannelEntry :=
  pairLoop lines none

/-! ## Reconciliation (fillDbChannelsFromPlaylist, index.ts 145-196)

A JS `Map<string, ChannelEntry>` is modelled as an association list with
JS `Map` semantics: `Map.set` on an existing key updates the entry in
place (keeping its position), on a fresh key appends; `values()`
enumerates in that order. -/

/-- The channel map. -/
abbrev ChannelMap : Type := List (String × ChannelEntry)

/-- `Map.get`. -/
def getA : ChannelMap → String → Option ChannelEntry
  | [], _ => none
  | (k', v') :: t, k => if k' = k then some v' else getA t k

/-- `Map.set`. -/
def setA : ChannelMap → String → ChannelEntry → ChannelMap
  | [], k, v => [(k, v)]
  | (k', v') :: t, k, v => if k' = k then (k, v) :: t else (k', v') :: setA t k v

/-- Indexing of the existing channels by `tvg_id` (index.ts 149-153):
entries with a falsy `tvg_id` are not indexed. -/
def buildChannelMap (existing : List ChannelEntry) : ChannelMap :=
  existing.foldl (fun m ch => if ch.tvg_id ≠ "" then setA m ch.tvg_id ch else m) []

/-- The key under which an unmatched playlist record is inserted
(index.ts 186): `plCh.tvg_id || plCh.tvg_name || 'playlist_' + idx`. -/
def insertKey (idx : Nat) (plCh : ChannelEntry) : String :=
  if plCh.tvg_id ≠ "" then plCh.tvg_id
  else if plCh.tvg_name ≠ "" then plCh.tvg_name
  else "playlist_" ++ toString idx

/-- The field update applied to a matched existing record
(index.ts 181-183). -/
def mergeUpdate (ch plCh : ChannelEntry) : ChannelEntry :=
  { ch with
    url := plCh.url
    group_title := if plCh.group_title ≠ "" then plCh.group_title else ch.group_title
    country := if plCh.country ≠ "" then plCh.country else ch.country }

/-- One iteration of the merge loop (index.ts 177-188) for the playlist
record `plCh` sitting at position `idx` of the playlist batch
(`playlistChannels.indexOf(plCh)` is reference equality in JS, i.e. the
record's own position). -/
def mergeStep (m : ChannelMap) (idx : Nat) (plCh : ChannelEntry) : ChannelMap :=
  let existing := if plCh.tvg_id ≠ "" then getA m plCh.tvg_id else none
  match existing with
  | some ch => setA m plCh.tvg_id (mergeUpdate ch plCh)
  | none => setA m (insertKey idx plCh) plCh

/-- The whole merge loop over the enumerated playlist batch. -/
def mergeAll (m : ChannelMap) (records : List ChannelEntry) : ChannelMap :=
  records.enum.foldl (fun m' p => mergeStep m' p.1 p.2) m

/-- The merged channel set (`Array.from(channelMap.values())`). -/
def reconcile (existing records : List ChannelEntry) : List ChannelEntry :=
  (mergeAll (buildChannelMap existing) records).map Prod.snd

/-! ## Orchestration (index.ts 22-38, 46-96, 105-197, 268-300)

The collaborators that live outside the two source files (cache, fetch,
the xml2js / file reads feeding the parsers) are modelled as oracle
inputs in `Env`; the store is explicit state; calls to the external
collaborators are recorded in a trace of `Action`s. -/

/-- External calls the fills can make, in source order. -/
inductive Action where
  | fetchXmltv
  | writeXmltvFile
  | clearChannelsOp
  | addChannelsOp
  | clearProgrammesOp
  | addProgrammesOp
  | fetchPlaylist
  | clearCacheOp
  | scheduleRefresh
  deriving DecidableEq, Repr

/-- Parsed XMLTV data (`XMLTVData`). -/
structure XMLTVData where
  channels : List ChannelEntry
  programmes : List ProgrammeEntry
  deriving DecidableEq, Repr

/-- Oracle inputs of one run: staleness verdict, cache and fetch results,
cache path availability, and the parser outputs for the XMLTV file that
would be written.  `none` models JS `null`. -/
structure Env where
  isStale : Bool
  cachedXmltv : Option String
  fetchXmltvResult : Option String
  xmltvPath : Option String
  parsedFull : XMLTVData
  parsedProgrammesOnly : List ProgrammeEntry
  playlistUrl : Option String
  cachedPlaylist : Option String
  fetchPlaylistResult : Option String
  deriving DecidableEq, Repr

/-- The store's two collections. -/
structure Store where
  channels : List ChannelEntry
  programmes : List ProgrammeEntry
  deriving DecidableEq, Repr

/-- JS truthiness of an optional string (`config.PLAYLIST` etc.). -/
def truthyStr : Option String → Bool
  | none => false
  | some s => s ≠ ""

/-- Lines 57-60 / 277-280: cached content, replaced by the fetch result
when the cache misses or `force` is set. -/
def effectiveXmltvContent (force : Bool) (env : Env) : Option String :=
  if env.cachedXmltv.isNone || force then env.fetchXmltvResult else env.cachedXmltv

/-- `fillDbFromXMLTV` (index.ts 46-96). -/
def fillDbFromXMLTV (force : Bool) (env : Env) (store : Store) :
    Store × List Action :=
  if !env.isStale && !force then (store, [])
  else
    let fetched := env.cachedXmltv.isNone || force
    let t0 := if fetched then [Action.fetchXmltv] else []
    match effectiveXmltvContent force env with
    | none => (store, t0)
    | some _ =>
      match env.xmltvPath with
      | none => (store, t0)
      | some _ =>
        let t1 := t0 ++ [Action.writeXmltvFile]
        let d := env.parsedFull
        let s1 := if d.channels ≠ [] then { store with channels := d.channels } else store
        let t2 := if d.channels ≠ [] then t1 ++ [Action.clearChannelsOp, Action.addChannelsOp] else t1
        let s2 := if d.programmes ≠ [] then { s1 with programmes := d.programmes } else s1
        let t3 := if d.programmes ≠ [] then t2 ++ [Action.clearProgrammesOp, Action.addProgrammesOp] else t2
        (s2, t3)

/-- `fillDbChannelsFromPlaylist` (index.ts 105-197).  The try/catch
around the cache read maps a thrown error to `null`
(`env.cachedPlaylist = none` covers both); a thrown or null fetch result
maps to `env.fetchPlaylistResult = none` (both paths return). -/
def fillDbChannelsFromPlaylist (force : Bool) (env : Env) (store : Store) :
    Store × List Action :=
  if !truthyStr env.playlistUrl then (store, [])
  else
    let fetched := env.cachedPlaylist.isNone || force
    let t0 := if fetched then [Action.fetchPlaylist] else []
    let content := if fetched then env.fetchPlaylistResult else env.cachedPlaylist
    match content with
    | none => (store, t0)
    | some text =>
      let records := parsePlaylistChannels ((splitOnChar '\n' text.data).map String.mk)
      let merged := reconcile store.channels records
      if merged ≠ [] then
        ({ store with channels := merged }, t0 ++ [Action.clearChannelsOp, Action.addChannelsOp])
      else (store, t0)

/-- `fillDbProgrammes` (index.ts 268-300): note that `clearProgrammes()`
runs before the fetch. -/
def fillDbProgrammes (force : Bool) (env : Env) (store : Store) :
    Store × List Action :=
  if env.isStale || force then
    let s0 := { store with programmes := [] }
    let fetched := env.cachedXmltv.isNone || force
    let t0 := Action.clearProgrammesOp :: (if fetched then [Action.fetchXmltv] else [])
    match effectiveXmltvContent force env with
    | some _ =>
      match env.xmltvPath with
      | some _ =>
        ({ s0 with programmes := s0.programmes ++ env.parsedProgrammesOnly },
          t0 ++ [Action.writeXmltvFile, Action.addProgrammesOp])
      | none => (s0, t0)
    | none => (s0, t0)
  else (store, [])

/-- `downloadCacheAndFillDb` (index.ts 22-38). -/
def downloadCacheAndFillDb (force : Bool) (env : Env) (store : Store) :
    Store × List Action :=
  let x := fillDbFromXMLTV force env store
  let p := fillDbChannelsFromPlaylist force env x.1
  (p.1, x.2 ++ p.2 ++ [Action.clearCacheOp] ++ (if force then [] else [Action.scheduleRefresh]))

/-! ## Spec-side auxiliary predicates -/

/-- Boolean non-emptiness of a string. -/
def nonEmptyStr (s : String) : Bool :=
  s ≠ ""

/-- The fields of a channel record that the merge update never touches
(everything except `url`, `group_title`, `country`). -/
def sameCore (v r : ChannelEntry) : Prop :=
  v.tvg_id = r.tvg_id ∧ v.tvg_name = r.tvg_name ∧ v.tvg_logo = r.tvg_logo ∧ v.xui_id = r.xui_id

instance (v r : ChannelEntry) : Decidable (sameCore v r) := by
  unfold sameCore
  infer_instance

/-! ## Concrete instances used by counterexamples and witnesses -/

/-- An XMLTV-derived channel with no `tvg_id`. -/
def chNoId : ChannelEntry :=
  { xui_id := 0, tvg_id := "", tvg_name := "A", tvg_logo := "logoA", group_title := "", url := "", country := "" }

/-- A playlist-derived channel with `tvg_id = "b"`. -/
def chPl : ChannelEntry :=
  { xui_id := 0, tvg_id := "b", tvg_name := "B", tvg_logo := "", group_title := "", url := "http://x/stream", country := "" }

/-- A programme entry standing for prior store content. -/
def progPrior : ProgrammeEntry :=
  { start_timestamp := 0, stop_timestamp := 0, channel := none, title := "p", description := "",
    category := "", subtitle := "", episode_num := "", season := none, episode := none,
    icon := "", image := "", date := "", previously_shown := false }

/-- An environment whose XMLTV fetch is exhausted: stale data, no cached
file, fetch returns `null`. -/
def envFetchFail : Env :=
  { isStale := true, cachedXmltv := none, fetchXmltvResult := none, xmltvPath := none,
    parsedFull := { channels := [], programmes := [] }, parsedProgrammesOnly := [],
    playlistUrl := none, cachedPlaylist := none, fetchPlaylistResult := none }

/-- A quiet environment: fresh data, nothing configured. -/
def envQuiet : Env :=
  { isStale := false, cachedXmltv := none, fetchXmltvResult := none, xmltvPath := none,
    parsedFull := { channels := [], programmes := [] }, parsedProgrammesOnly := [],
    playlistUrl := none, cachedPlaylist := none, fetchPlaylistResult := none }

/-- A raw programme element with timing attributes and a
`previously-shown` child. -/
def progShown : RawProgramme :=
  { start := some "20240101000000", stop := some "20240101010000", channel := some "c",
    title := none, desc := none, category := none, subtitle := none, episodeNum := none,
    iconSrc := none, image := none, date := none, previouslyShown := some () }

/-- The same element without timing attributes. -/
def progNoTimes : RawProgramme :=
  { start := none, stop := none, channel := some "c",
    title := some (XmlText.str "t"), desc := none, category := none, subtitle := none,
    episodeNum := none, iconSrc := none, image := none, date := none, previouslyShown := none }

/-- A trivial date parse oracle for witnesses. -/
def pdZero : DateParse := fun _ => 0

/-! ## Helper lemmas: the channel map -/

theorem getA_setA_self (m : ChannelMap) (k : String) (v : ChannelEntry) :
    getA (setA m k v) k = some v := by
  induction m with
  | nil => simp [setA, getA]
  | cons hd t ih =>
    obtain ⟨k', v'⟩ := hd
    by_cases hk : k' = k
    · simp [setA, getA, hk]
    · simp [setA, getA, hk, ih]

theorem getA_setA_ne (m : ChannelMap) (k k2 : String) (v : ChannelEntry)
    (h : k2 ≠ k) : getA (setA m k v) k2 = getA m k2 := by
  induction m with
  | nil => simp [setA, getA, Ne.symm h]
  | cons hd t ih =>
    obtain ⟨k', v'⟩ := hd
    by_cases hk : k' = k
    · subst hk
      simp [setA, getA, Ne.symm h]
    · simp [setA, getA, hk, ih]

theorem length_setA (m : ChannelMap) (k : String) (v : ChannelEntry) :
    (setA m k v).length = if (getA m k).isSome then m.length else m.length + 1 := by
  induction m with
  | nil => simp [setA, getA]
  | cons hd t ih =>
    obtain ⟨k', v'⟩ := hd
    by_cases hk : k' = k
    · simp [setA, getA, hk]
    · simp [setA, getA, hk, ih]
      split <;> simp

theorem mem_setA (m : ChannelMap) (k : String) (v : ChannelEntry)
    (p : String × ChannelEntry) (h : p ∈ setA m k v) : p ∈ m ∨ p = (k, v) := by
  induction m with
  | nil =>
    simp [setA] at h
    exact Or.inr (by simp [h])
  | cons hd t ih =>
    obtain ⟨k', v'⟩ := hd
    by_cases hk : k' = k
    · subst hk
      simp only [setA, if_pos rfl] at h
      rcases List.mem_cons.mp h with h1 | h1
      · exact Or.inr h1
      · exact Or.inl (List.mem_cons_of_mem _ h1)
    · simp only [setA, if_neg hk] at h
      rcases List.mem_cons.mp h with h1 | h1
      · exact Or.inl (by simp [h1])
      · rcases ih h1 with h2 | h2
        · exact Or.inl (List.mem_cons_of_mem _ h2)
        · exact Or.inr h2

/-! ## C5: matched playlist record updates url unconditionally,
group_title/country only when non-empty, and nothing else -/

/-- C5: in a reconciliation run, when a playlist record's `tvg_id`
matches an indexed existing record, the merge step stores under that
`tvg_id` exactly the existing record with its `url` overwritten by the
playlist `url`, its `group_title` and `country` overwritten only when
the playlist values are non-empty, and all other fields (`tvg_id`,
`tvg_name`, `tvg_logo`, `xui_id`) unchanged; every other key of the map
is untouched. -/
theorem matched_merge_overwrites_url_only (m : ChannelMap) (idx : Nat)
    (plCh ch : ChannelEntry) (hid : plCh.tvg_id ≠ "")
    (hm : getA m plCh.tvg_id = some ch) :
    getA (mergeStep m idx plCh) plCh.tvg_id =
      some { ch with
             url := plCh.url
             group_title := if plCh.group_title ≠ "" then plCh.group_title else ch.group_title
             country := if plCh.country ≠ "" then plCh.country else ch.country } ∧
    (mergeUpdate ch plCh).tvg_id = ch.tvg_id ∧
    (mergeUpdate ch plCh).tvg_name = ch.tvg_name ∧
    (mergeUpdate ch plCh).tvg_logo = ch.tvg_logo ∧
    (mergeUpdate ch plCh).xui_id = ch.xui_id ∧
    ∀ k, k ≠ plCh.tvg_id → getA (mergeStep m idx plCh) k = getA m k := by
  have hstep : mergeStep m idx plCh = setA m plCh.tvg_id (mergeUpdate ch plCh) := by
    simp [mergeStep, hid, hm]
  refine ⟨?_, by simp [mergeUpdate], by simp [mergeUpdate], by simp [mergeUpdate],
    by simp [mergeUpdate], ?_⟩
  · rw [hstep]
    simpa [mergeUpdate] using getA_setA_self m plCh.tvg_id (mergeUpdate ch plCh)
  · intro k hk
    rw [hstep]
    exact getA_setA_ne m plCh.tvg_id k (mergeUpdate ch plCh) hk

/-- C5 witness: the spec's own example — an XMLTV channel
`{tvg_id := "abc", url := "", tvg_logo := "logo"}` merged with a playlist
channel `{tvg_id := "abc", url := "http://x/stream"}` gets the playlist
url and keeps its logo. -/
theorem matched_merge_overwrites_url_only_witness :
    getA
      (mergeStep [("abc", { xui_id := 7, tvg_id := "abc", tvg_name := "N", tvg_logo := "logo",
                            group_title := "g", url := "", country := "c" })] 0
        { xui_id := 0, tvg_id := "abc", tvg_name := "", tvg_logo := "", group_title := "",
          url := "http://x/stream", country := "" }) "abc" =
      some { xui_id := 7, tvg_id := "abc", tvg_name := "N", tvg_logo := "logo",
             group_title := "g", url := "http://x/stream", country := "c" } := by
  have h := matched_merge_overwrites_url_only
    [("abc", { xui_id := 7, tvg_id := "abc", tvg_name := "N", tvg_logo := "logo",
               group_title := "g", url := "", country := "c" })] 0
    { xui_id := 0, tvg_id := "abc", tvg_name := "", tvg_logo := "", group_title := "",
      url := "http://x/stream", country := "" }
    { xui_id := 7, tvg_id := "abc", tvg_name := "N", tvg_logo := "logo",
      group_title := "g", url := "", country := "c" }
    (by decide) (by decide)
  simpa using h.1

/-! ## C6: unmatched playlist record inserted under
tvg_id / tvg_name / synthetic key, growing the map by one -/

/-- C6: in a reconciliation run, a playlist record whose `tvg_id`
matches no indexed existing record is inserted as a new entry whose key
is its `tvg_id` when non-empty, else its `tvg_name` when non-empty, else
the synthetic key derived from its batch position; when that key is not
already present, the map's cardinality grows by exactly one. -/
theorem unmatched_merge_inserts_new_entry (m : ChannelMap) (idx : Nat)
    (plCh : ChannelEntry)
    (hnom : plCh.tvg_id = "" ∨ getA m plCh.tvg_id = none)
    (hfresh : getA m (insertKey idx plCh) = none) :
    mergeStep m idx plCh = setA m (insertKey idx plCh) plCh ∧
    getA (mergeStep m idx plCh) (insertKey idx plCh) = some plCh ∧
    (mergeStep m idx plCh).length = m.length + 1 := by
  have hstep : mergeStep m idx plCh = setA m (insertKey idx plCh) plCh := by
    unfold mergeStep
    rcases hnom with h | h
    · simp [h]
    · by_cases hid : plCh.tvg_id ≠ ""
      · simp [hid, h]
      · simp [hid]
  refine ⟨hstep, ?_, ?_⟩
  · rw [hstep]
    exact getA_setA_self m (insertKey idx plCh) plCh
  · rw [hstep, length_setA, hfresh]
    simp

/-- C6 witness: a playlist record with a fresh `tvg_id` lands in the map
under that id and the map grows from one entry to two. -/
theorem unmatched_merge_inserts_new_entry_witness :
    getA (mergeStep [("a", chNoId)] 0 chPl) (insertKey 0 chPl) = some chPl ∧
    (mergeStep [("a", chNoId)] 0 chPl).length = 2 := by
  have h := unmatched_merge_inserts_new_entry [("a", chNoId)] 0 chPl
    (Or.inr (by decide)) (by decide)
  exact ⟨h.2.1, h.2.2⟩

/-! ## C2: existing channels without a tvg_id are NOT retained -/

theorem getA_mem (m : ChannelMap) (k : String) (v : ChannelEntry)
    (h : getA m k = some v) : (k, v) ∈ m := by
  induction m with
  | nil => simp [getA] at h
  | cons hd t ih =>
    obtain ⟨k', v'⟩ := hd
    by_cases hk : k' = k
    · subst hk
      simp [getA] at h
      simp [h]
    · simp [getA, hk] at h
      exact List.mem_cons_of_mem _ (ih h)

theorem sameCore_mergeUpdate (ch plCh r : ChannelEntry)
    (h : sameCore ch r) : sameCore (mergeUpdate ch plCh) r := by
  simpa [sameCore, mergeUpdate] using h

theorem buildChannelMap_values (existing : List ChannelEntry) :
    ∀ q ∈ buildChannelMap existing, q.2.tvg_id ≠ "" := by
  have key : ∀ (l : List ChannelEntry) (m0 : ChannelMap),
      (∀ q ∈ m0, q.2.tvg_id ≠ "") →
      ∀ q ∈ l.foldl (fun m ch => if ch.tvg_id ≠ "" then setA m ch.tvg_id ch else m) m0,
        q.2.tvg_id ≠ "" := by
    intro l
    induction l with
    | nil =>
      intro m0 hm0 q hq
      simpa using hm0 q hq
    | cons c t ih =>
      intro m0 hm0 q hq
      simp only [List.foldl_cons] at hq
      refine ih _ ?_ q hq
      intro q2 hq2
      by_cases hc : c.tvg_id = ""
      · simp only [hc, ne_eq, not_true_eq_false, if_neg, not_false_eq_true] at hq2
        · exact hm0 q2 hq2
      · simp only [ne_eq, hc, not_false_eq_true, if_pos] at hq2
        rcases mem_setA _ _ _ _ hq2 with h | h
        · exact hm0 q2 h
        · simp only [h]
          exact hc
  intro q hq
  exact key existing [] (by simp) q hq

/-- Every value in the map after the merge loop either carries a
non-empty `tvg_id` or shares its untouched core fields with some record
of the playlist batch. -/
theorem mergeAll_values_core (records : List ChannelEntry) :
    ∀ (l : List (Nat × ChannelEntry)) (m : ChannelMap),
      (∀ p ∈ l, p.2 ∈ records) →
      (∀ q ∈ m, q.2.tvg_id ≠ "" ∨ ∃ r ∈ records, sameCore q.2 r) →
      ∀ q ∈ l.foldl (fun m' p => mergeStep m' p.1 p.2) m,
        q.2.tvg_id ≠ "" ∨ ∃ r ∈ records, sameCore q.2 r := by
  intro l
  induction l with
  | nil =>
    intro m _ hm q hq
    simpa using hm q hq
  | cons p t ih =>
    intro m hl hm q hq
    simp only [List.foldl_cons] at hq
    refine ih (mergeStep m p.1 p.2) (fun x hx => hl x (List.mem_cons_of_mem _ hx)) ?_ q hq
    intro q2 hq2
    have hp : p.2 ∈ records := hl p (List.mem_cons_self _ _)
    by_cases hid : p.2.tvg_id = ""
    · have hstep : mergeStep m p.1 p.2 = setA m (insertKey p.1 p.2) p.2 := by
        simp [mergeStep, hid]
      rw [hstep] at hq2
      rcases mem_setA _ _ _ _ hq2 with h | h
      · exact hm _ h
      · right
        exact ⟨p.2, hp, by simp [h, sameCore]⟩
    · cases hg : getA m p.2.tvg_id with
      | none =>
        have hstep : mergeStep m p.1 p.2 = setA m (insertKey p.1 p.2) p.2 := by
          simp [mergeStep, hid, hg]
        rw [hstep] at hq2
        rcases mem_setA _ _ _ _ hq2 with h | h
        · exact hm _ h
        · right
          exact ⟨p.2, hp, by simp [h, sameCore]⟩
      | some ch =>
        have hstep : mergeStep m p.1 p.2 = setA m p.2.tvg_id (mergeUpdate ch p.2) := by
          simp [mergeStep, hid, hg]
        rw [hstep] at hq2
        rcases mem_setA _ _ _ _ hq2 with h | h
        · exact hm _ h
        · have hchmem : (p.2.tvg_id, ch) ∈ m := getA_mem m _ _ hg
          rcases hm _ hchmem with hc | ⟨r, hr, hcr⟩
          · left
            simpa [h, mergeUpdate] using hc
          · right
            exact ⟨r, hr, by simpa [h] using sameCore_mergeUpdate ch p.2 r hcr⟩

/-- C2 counterexample: an existing channel with `tvg_id = ""` is absent
from the merged set even though the merged set is non-empty and is
written to the store. -/
theorem existing_channel_without_id_dropped :
    chNoId.tvg_id = "" ∧
    reconcile [chNoId] [chPl] = [chPl] ∧
    chNoId ∉ reconcile [chNoId] [chPl] := by decide

/-- C2 amended: an existing channel record lacking a `tvg_id` is never
indexed, and it does NOT appear in the merged channel set unless the
playlist batch itself contains a record sharing all of its
merge-untouched fields (`tvg_id`, `tvg_name`, `tvg_logo`, `xui_id`);
in particular such channels are dropped, not retained. -/
theorem channel_without_id_never_in_merged (existing records : List ChannelEntry)
    (ch : ChannelEntry) (hch : ch.tvg_id = "")
    (hno : ∀ r ∈ records, ¬ sameCore ch r) :
    ch ∉ reconcile existing records := by
  intro hmem
  unfold reconcile mergeAll at hmem
  rcases List.mem_map.mp hmem with ⟨q, hq, hq2⟩
  have hcore := mergeAll_values_core records records.enum (buildChannelMap existing)
    (fun p hp => by
      have : p.2 ∈ records.enum.map Prod.snd := List.mem_map_of_mem Prod.snd hp
      simpa [List.enum_map_snd] using this)
    (fun q1 hq1 => Or.inl (buildChannelMap_values existing q1 hq1))
    q hq
  rcases hcore with hc | ⟨r, hr, hcr⟩
  · rw [hq2] at hc
    exact hc hch
  · rw [hq2] at hcr
    exact hno r hr hcr

/-- C2 amended witness at the counterexample instance. -/
theorem channel_without_id_never_in_merged_witness :
    chNoId ∉ reconcile [chNoId] [chPl] :=
  channel_without_id_never_in_merged [chNoId] [chPl] chNoId (by decide) (by decide)

/-! ## C3: channel decoding from display-name elements -/

theorem firstSuch_cons (p : String → Bool) (x : String) (l : List String) :
    firstSuch p (x :: l) = if p x then x else firstSuch p l := by
  by_cases h : p x <;> simp [firstSuch, List.filter_cons, h]

theorem isNumericStr_ne_empty (s : String) (h : isNumericStr s = true) : s ≠ "" := by
  simp [isNumericStr] at h
  exact h.1

/-- The display-name scan computes: first non-empty extracted text, and
first purely-numeric extracted text. -/
theorem scanDisplayNames_spec (ds : List XmlText) (tn cn : String) :
    scanDisplayNames ds tn cn =
      (if tn = "" then firstSuch nonEmptyStr (ds.map (fun d => extractTextContent (some d))) else tn,
       if cn = "" then firstSuch isNumericStr (ds.map (fun d => extractTextContent (some d))) else cn) := by
  induction ds generalizing tn cn with
  | nil =>
    simp only [scanDisplayNames, List.map_nil, firstSuch, List.filter_nil, List.head?_nil,
      Option.getD_none, Prod.mk.injEq]
    constructor <;> · split <;> simp_all
  | cons d ds ih =>
    simp only [scanDisplayNames, List.map_cons]
    rw [ih]
    simp only [Prod.mk.injEq]
    refine ⟨?_, ?_⟩
    · by_cases htn : tn = ""
      · by_cases hn : extractTextContent (some d) = ""
        · simp [htn, hn, firstSuch_cons, nonEmptyStr]
        · simp [htn, hn, firstSuch_cons, nonEmptyStr]
      · simp [htn]
    · by_cases hcn : cn = ""
      · by_cases hnum : isNumericStr (extractTextContent (some d)) = true
        · have hne := isNumericStr_ne_empty _ hnum
          simp [hcn, hnum, hne, firstSuch_cons]
        · simp [hcn, hnum, firstSuch_cons, Bool.and_eq_true]
      · simp [hcn, Bool.and_eq_true]

/-- A channel element whose first display-name extracts to the empty
string while the second is `"Foo"`. -/
def chFirstEmpty : RawChannel :=
  { id := some "c1", displayNames := [XmlText.obj none, XmlText.str "Foo"], iconSrc := none }

/-- C3 counterexample: the parsed `tvg_name` is `"Foo"`, which is NOT
the text of the first display-name element (that text is empty): the
source picks the first display-name whose extracted text is non-empty,
not the first element. -/
theorem tvg_name_not_first_display_text :
    (parseChannelEntry none chFirstEmpty).tvg_name = "Foo" ∧
    chFirstEmpty.displayNames.head? = some (XmlText.obj none) ∧
    extractTextContent (some (XmlText.obj none)) = "" ∧
    (parseChannelEntry none chFirstEmpty).tvg_name ≠
      extractTextContent (some (XmlText.obj none)) := by decide

/-- C3 amended: for every XMLTV channel element, `tvg_name` is the text
of the first display-name whose extracted text is non-empty (`""` if
none) — not necessarily the first element —; the channel number is the
first purely-numeric display-name value; `xui_id` is that number parsed
as an integer when it exists and `0` otherwise; the stream URL is the
configured template with (the first occurrence of) `{channel}` replaced
by the channel number, or empty when there is no template or no numeric
display-name. -/
theorem parseChannelEntry_spec (streamBase : Option String) (c : RawChannel) :
    (parseChannelEntry streamBase c).tvg_name = firstSuch nonEmptyStr (displayTexts c) ∧
    (scanDisplayNames c.displayNames "" "").2 = firstSuch isNumericStr (displayTexts c) ∧
    (parseChannelEntry streamBase c).xui_id =
      (if firstSuch isNumericStr (displayTexts c) ≠ ""
       then natOfDigits (firstSuch isNumericStr (displayTexts c)).data else 0) ∧
    (parseChannelEntry streamBase c).url =
      (match streamBase with
       | some t =>
         if t ≠ "" && firstSuch isNumericStr (displayTexts c) ≠ ""
         then replaceFirst t "{channel}" (firstSuch isNumericStr (displayTexts c)) else ""
       | none => "") ∧
    (parseChannelEntry streamBase c).tvg_id = c.id.getD "" ∧
    (parseChannelEntry streamBase c).tvg_logo = c.iconSrc.getD "" := by
  have hs : scanDisplayNames c.displayNames "" "" =
      (firstSuch nonEmptyStr (displayTexts c), firstSuch isNumericStr (displayTexts c)) := by
    simpa [displayTexts] using scanDisplayNames_spec c.displayNames "" ""
  refine ⟨?_, ?_, ?_, ?_, ?_, ?_⟩
  · simp [parseChannelEntry, hs]
  · simp [hs]
  · simp [parseChannelEntry, hs]
  · cases streamBase <;> simp [parseChannelEntry, hs]
  · simp [parseChannelEntry]
  · simp [parseChannelEntry]

/-! ## C4: episode number decoding -/

/-- C4 counterexample: an `onscreen` value `"S0E1"` (season 0) followed
by an `xmltv_ns` value `"3.4.0"` on the same element does NOT take
precedence: the `!season` guard treats the onscreen-derived season `0`
as unset, so the xmltv_ns element overwrites both season and episode
(yielding 4 and 5 instead of 0 and 1). -/
theorem onscreen_zero_season_loses_precedence :
    findSE "S0E1".data = some (0, 1) ∧
    parseEpisodeNumber
        (some [⟨some "onscreen", some "S0E1"⟩, ⟨some "xmltv_ns", some "3.4.0"⟩]) =
      ("S0E1", some 4, some 5) ∧
    parseEpisodeNumber
        (some [⟨some "onscreen", some "S0E1"⟩, ⟨some "xmltv_ns", some "3.4.0"⟩]) ≠
      ("S0E1", some 0, some 1) := by decide

/-- C4 amended: `xmltv_ns` value `"1.26.0/1"` alone yields season 2 and
episode 27 (0-indexed parts plus one); `onscreen` value `"S2E27"` alone
yields season 2, episode 27, with `episode_num = "S2E27"` verbatim; and
whenever an `onscreen` and an `xmltv_ns` element are present on the same
programme element and the onscreen-derived season is NON-ZERO, the
onscreen-derived season and episode take precedence in either order
(when the onscreen season is zero a later `xmltv_ns` element overwrites
both, as the counterexample shows). -/
theorem parseEpisodeNumber_spec :
    parseEpisodeNumber (some [⟨some "xmltv_ns", some "1.26.0/1"⟩]) = ("", some 2, some 27) ∧
    parseEpisodeNumber (some [⟨some "onscreen", some "S2E27"⟩]) = ("S2E27", some 2, some 27) ∧
    ∀ (v w : String) (s e : Nat), findSE v.data = some (s, e) → s ≠ 0 →
      parseEpisodeNumber (some [⟨some "onscreen", some v⟩, ⟨some "xmltv_ns", some w⟩]) =
        (v, some (s : Int), some (e : Int)) ∧
      parseEpisodeNumber (some [⟨some "xmltv_ns", some w⟩, ⟨some "onscreen", some v⟩]) =
        (v, some (s : Int), some (e : Int)) := by
  refine ⟨by decide, by decide, ?_⟩
  intro v w s e hv hs
  have hne1 : ("xmltv_ns" : String) ≠ "onscreen" := by decide
  have honscreen : ∀ (en : String) (s0 e0 : Option Int),
      epLoop [⟨some "onscreen", some v⟩] en s0 e0 = (v, some (s : Int), some (e : Int)) := by
    intro en s0 e0
    simp [epLoop, hv]
  have hskip : ∀ (el : EpisodeNumElem) (rest : List EpisodeNumElem) (en : String)
      (s0 e0 : Option Int), el.system ≠ some "onscreen" →
      ∃ s' e', epLoop (el :: rest) en s0 e0 = epLoop rest en s' e' := by
    intro el rest en s0 e0 hno
    simp only [epLoop, if_neg hno]
    split
    · split
      · exact ⟨_, _, rfl⟩
      · exact ⟨s0, e0, rfl⟩
    · exact ⟨s0, e0, rfl⟩
  constructor
  · have hcast : truthyNum (some (s : Int)) = true := by
      simp [truthyNum, hs]
    simp [parseEpisodeNumber, epLoop, hv, hne1, hcast]
  · obtain ⟨s', e', hstep⟩ :=
      hskip ⟨some "xmltv_ns", some w⟩ [⟨some "onscreen", some v⟩] "" none none
        (by simp [hne1])
    simp only [parseEpisodeNumber]
    rw [hstep]
    exact honscreen "" s' e'

/-- C4 amended witness: the precedence clause applied to the spec's own
values `"S2E27"` and `"1.26.0/1"`, onscreen element last. -/
theorem parseEpisodeNumber_spec_witness :
    parseEpisodeNumber (some [⟨some "xmltv_ns", some "1.26.0/1"⟩, ⟨some "onscreen", some "S2E27"⟩]) =
      ("S2E27", some 2, some 27) :=
  (parseEpisodeNumber_spec.2.2 "S2E27" "1.26.0/1" 2 27 (by decide) (by decide)).2

/-! ## C8: per-element failure isolation in programme parsing -/

theorem collectProgrammes_go (pd : DateParse) (raws : List RawProgramme) :
    ∀ acc : List ProgrammeEntry,
      raws.foldl
        (fun acc p =>
          match parseProgrammeEntry pd p with
          | Except.ok e => acc ++ [e]
          | Except.error _ => acc)
        acc =
      acc ++ raws.filterMap (fun p => okOf (parseProgrammeEntry pd p)) := by
  induction raws with
  | nil =>
    intro acc
    simp
  | cons p t ih =>
    intro acc
    simp only [List.foldl_cons, List.filterMap_cons]
    cases hp : parseProgrammeEntry pd p with
    | ok e => simp [hp, ih, okOf]
    | error msg => simp [hp, ih, okOf]

/-- C8: the programme collection loop returns exactly the successfully
parsed elements in order (one element's failure never discards the
others), and a programme element fails — is excluded — precisely when
its `start` or its `stop` attribute is absent or empty. -/
theorem programme_parse_partial_success (pd : DateParse) (raws : List RawProgramme) :
    collectProgrammes pd raws =
      raws.filterMap (fun p => okOf (parseProgrammeEntry pd p)) ∧
    ∀ p : RawProgramme,
      okOf (parseProgrammeEntry pd p) = none ↔
        (p.start.getD "" = "" ∨ p.stop.getD "" = "") := by
  constructor
  · simpa using collectProgrammes_go pd raws []
  · intro p
    by_cases hc : p.start.getD "" = "" ∨ p.stop.getD "" = ""
    · simp [parseProgrammeEntry, okOf, hc]
    · simp [parseProgrammeEntry, okOf, hc]

/-- The entry produced from `progShown` under the trivial date oracle. -/
def entryShown : ProgrammeEntry :=
  { start_timestamp := 0, stop_timestamp := 0, channel := some "c", title := "",
    description := "", category := "", subtitle := "", episode_num := "", season := none,
    episode := none, icon := "", image := "", date := "", previously_shown := true }

/-- C8 witness: a batch with one valid element and one lacking timing
attributes yields exactly the valid element's entry. -/
theorem programme_parse_partial_success_witness :
    collectProgrammes pdZero [progShown, progNoTimes] = [entryShown] := by
  have h := (programme_parse_partial_success pdZero [progShown, progNoTimes]).1
  rw [h]
  decide

/-! ## C10: previously_shown is bare key presence -/

/-- C10: for every successfully parsed programme element, the
`previously_shown` flag is true exactly when the raw element carries a
`previously-shown` child key, regardless of that child's content. -/
theorem previously_shown_iff_key_present (pd : DateParse) (p : RawProgramme)
    (e : ProgrammeEntry) (h : parseProgrammeEntry pd p = Except.ok e) :
    e.previously_shown = true ↔ p.previouslyShown.isSome = true := by
  unfold parseProgrammeEntry at h
  split at h
  · exact absurd h (by simp)
  · rw [Except.ok.injEq] at h
    subst h
    simp

/-- C10 witness: an element with an empty `previously-shown` child
parses with the flag set. -/
theorem previously_shown_iff_key_present_witness :
    entryShown.previously_shown = true ↔ progShown.previouslyShown.isSome = true :=
  previously_shown_iff_key_present pdZero progShown entryShown (by rfl)

/-! ## C7: M3U line pairing -/

theorem startsHash_of_isExtinf (l : String) (h : isExtinf l = true) :
    startsHash l = true := by
  unfold isExtinf at h
  unfold startsHash
  cases hl : l.data with
  | nil =>
    rw [hl] at h
    exact absurd h (by decide)
  | cons b bs =>
    rw [hl] at h
    rw [show "#EXTINF:".data = '#' :: "EXTINF:".data from rfl] at h
    simp only [List.isPrefixOf, Bool.and_eq_true, beq_iff_eq] at h
    simp [h.1.symm]

theorem trimStr_ne_empty_of_startsHash (l : String) (h : startsHash l = true) :
    trimStr l ≠ "" := by
  unfold startsHash at h
  obtain ⟨bs, hl⟩ : ∃ bs, l.data = '#' :: bs := by
    cases hd : l.data with
    | nil =>
      rw [hd] at h
      simp at h
    | cons b bs =>
      rw [hd] at h
      simp only [decide_eq_true_eq] at h
      exact ⟨bs, by simp [hd, h]⟩

  intro hcontra
  have hdata : (((l.data.dropWhile Char.isWhitespace).reverse).dropWhile Char.isWhitespace).reverse = [] := by
    have := congrArg String.data hcontra
    simpa [trimStr] using this
  rw [hl] at hdata
  rw [show List.dropWhile Char.isWhitespace ('#' :: bs) = '#' :: bs from by
    simp [List.dropWhile_cons]] at hdata
  rw [List.reverse_eq_nil_iff] at hdata
  rw [List.dropWhile_eq_nil_iff] at hdata
  have : Char.isWhitespace '#' = true := hdata '#' (by simp)
  exact absurd this (by decide)

theorem pairLoop_extinf_pair (e1 e2 : String) (rest : List String)
    (p : Option ChannelEntry) (h1 : isExtinf e1 = true) (h2 : isExtinf e2 = true) :
    pairLoop (e1 :: e2 :: rest) p = pairLoop (e2 :: rest) p := by
  simp [pairLoop, h1, h2]

theorem pairLoop_all_silent (ls : List String) :
    (∀ l ∈ ls, startsHash l = true ∨ trimStr l = "") →
    ∀ p : Option ChannelEntry, pairLoop ls p = [] := by
  induction ls with
  | nil =>
    intro _ p
    rfl
  | cons l t ih =>
    intro hall p
    have hl := hall l (List.mem_cons_self _ _)
    have ht := fun x hx => hall x (List.mem_cons_of_mem _ hx)
    by_cases he : isExtinf l = true
    · simp [pairLoop, he, ih ht]
    · cases p with
      | none => simp [pairLoop, he, ih ht]
      | some c =>
        rcases hl with h1 | h1
        · simp [pairLoop, he, h1, ih ht]
        · simp [pairLoop, he, h1, ih ht]

theorem pairLoop_skip_mid (u : String) (rest : List String)
    (hu1 : startsHash u = false) (hu2 : trimStr u ≠ "") :
    ∀ mid : List String,
      (∀ l ∈ mid, (startsHash l = true ∧ isExtinf l = false) ∨ trimStr l = "") →
      ∀ c : ChannelEntry,
        pairLoop (mid ++ u :: rest) (some c) =
          { c with url := trimStr u } :: pairLoop rest none := by
  intro mid
  induction mid with
  | nil =>
    intro _ c
    have hue : isExtinf u = false := by
      cases he : isExtinf u
      · rfl
      · rw [startsHash_of_isExtinf u he] at hu1
        exact absurd hu1 (by decide)
    simp [pairLoop, hue, hu1, hu2]
  | cons m t ih =>
    intro hall c
    have hmem := hall m (List.mem_cons_self _ _)
    have hrest := fun x hx => hall x (List.mem_cons_of_mem _ hx)
    rcases hmem with ⟨hm1, hm2⟩ | hm
    · simp [pairLoop, hm2, hm1, ih hrest]
    · have hme : isExtinf m = false := by
        cases he : isExtinf m
        · rfl
        · exact absurd hm (trimStr_ne_empty_of_startsHash m (startsHash_of_isExtinf m he))
      simp [pairLoop, hme, hm, ih hrest]

theorem pairLoop_url_provenance (ls : List String) :
    ∀ (p : Option ChannelEntry) (r : ChannelEntry), r ∈ pairLoop ls p →
      ∃ l ∈ ls, startsHash l = false ∧ trimStr l ≠ "" ∧ r.url = trimStr l := by
  induction ls with
  | nil =>
    intro p r hr
    simp [pairLoop] at hr
  | cons l t ih =>
    intro p r hr
    by_cases he : isExtinf l = true
    · simp only [pairLoop, he, if_true] at hr
      obtain ⟨l', hl', hrest⟩ := ih _ r hr
      exact ⟨l', List.mem_cons_of_mem _ hl', hrest⟩
    · cases p with
      | none =>
        simp only [pairLoop, he, if_false, Bool.false_eq_true] at hr
        obtain ⟨l', hl', hrest⟩ := ih _ r hr
        exact ⟨l', List.mem_cons_of_mem _ hl', hrest⟩
      | some c =>
        by_cases hcond : (!startsHash l && decide (trimStr l ≠ "")) = true
        · simp only [pairLoop, he, Bool.false_eq_true, if_false, hcond, if_true] at hr
          rcases List.mem_cons.mp hr with h | h
          · obtain ⟨hc1, hc2⟩ := by simpa [Bool.and_eq_true] using hcond
            exact ⟨l, List.mem_cons_self _ _, by simpa using hc1, hc2, by simp [h]⟩
          · obtain ⟨l', hl', hrest⟩ := ih _ r h
            exact ⟨l', List.mem_cons_of_mem _ hl', hrest⟩
        · simp only [pairLoop, he, Bool.false_eq_true, if_false, hcond] at hr
          obtain ⟨l', hl', hrest⟩ := ih _ r hr
          exact ⟨l', List.mem_cons_of_mem _ hl', hrest⟩

/-- C7: the line-pairing loop (a) drops an `#EXTINF:` entry immediately
followed by another `#EXTINF:` line while parsing the second normally,
(b) emits nothing from a run of comment/blank lines — in particular a
trailing `#EXTINF:` with no URL line before end-of-input yields no
record —, (c) emits, for an `#EXTINF:` line followed (across
comment/blank lines, before any further `#EXTINF:`) by a non-comment
non-blank line, exactly one record whose `url` is that line's trimmed
text, and (d) every emitted record's `url` is the trimmed text of some
non-comment, non-blank input line. -/
theorem playlist_pairing_spec :
    (∀ (e1 e2 : String) (rest : List String) (p : Option ChannelEntry),
      isExtinf e1 = true → isExtinf e2 = true →
      pairLoop (e1 :: e2 :: rest) p = pairLoop (e2 :: rest) p) ∧
    (∀ ls : List String, (∀ l ∈ ls, startsHash l = true ∨ trimStr l = "") →
      ∀ p : Option ChannelEntry, pairLoop ls p = []) ∧
    (∀ (e u : String) (mid rest : List String),
      isExtinf e = true → startsHash u = false → trimStr u ≠ "" →
      (∀ l ∈ mid, (startsHash l = true ∧ isExtinf l = false) ∨ trimStr l = "") →
      parsePlaylistChannels (e :: (mid ++ u :: rest)) =
        { fromPlaylistLine e with url := trimStr u } :: pairLoop rest none) ∧
    (∀ (ls : List String) (p : Option ChannelEntry) (r : ChannelEntry), r ∈ pairLoop ls p →
      ∃ l ∈ ls, startsHash l = false ∧ trimStr l ≠ "" ∧ r.url = trimStr l) := by
  refine ⟨pairLoop_extinf_pair, pairLoop_all_silent, ?_, pairLoop_url_provenance⟩
  intro e u mid rest he hu1 hu2 hmid
  unfold parsePlaylistChannels
  simp only [pairLoop, he, if_true]
  exact pairLoop_skip_mid u rest hu1 hu2 mid hmid (fromPlaylistLine e)

/-- C7 witness: an entry line, a comment, a blank line, a URL line and a
trailing `#EXTINF:` parse to exactly one record carrying the trimmed
URL. -/
theorem playlist_pairing_spec_witness :
    parsePlaylistChannels
        ("#EXTINF:-1 tvg-id=\"a\",A" :: (["# comment", ""] ++ " http://u " :: ["#EXTINF:-1,X"])) =
      [{ fromPlaylistLine "#EXTINF:-1 tvg-id=\"a\",A" with url := "http://u" }] := by
  have h := playlist_pairing_spec.2.2.1 "#EXTINF:-1 tvg-id=\"a\",A" " http://u "
    ["# comment", ""] ["#EXTINF:-1,X"] (by decide) (by decide) (by decide) (by decide)
  rw [h]
  decide

/-! ## C1: what a failing refresh step leaves behind -/

/-- C1 counterexample: a `fillDbProgrammes` run over stale data whose
XMLTV fetch yields no content does NOT leave the programme store with
its prior content: `clearProgrammes()` runs before the fetch, so the
store ends up empty. -/
theorem fillDbProgrammes_fetch_failure_clears_store :
    effectiveXmltvContent false envFetchFail = none ∧
    (fillDbProgrammes false envFetchFail
        { channels := [], programmes := [progPrior] }).1.programmes = [] ∧
    (fillDbProgrammes false envFetchFail
        { channels := [], programmes := [progPrior] }).1.programmes ≠ [progPrior] := by decide

/-- C1 amended: when a refresh step fails before parsing (the effective
XMLTV content is null or the cache path is null), `fillDbFromXMLTV`
leaves the store untouched and invokes none of
clearChannels/addChannels/clearProgrammes/addProgrammes, and an empty
parse result likewise leaves the corresponding entity type's store
content untouched; but `fillDbProgrammes` has already cleared the
programme store whenever the data is stale or the run forced, so such a
failing run leaves the programme store EMPTY rather than with its prior
content (only a not-stale unforced run leaves it untouched). -/
theorem fill_failure_behaviour (force : Bool) (env : Env) (store : Store) :
    ((effectiveXmltvContent force env = none ∨ env.xmltvPath = none) →
      ((env.isStale || force) = true →
        (fillDbProgrammes force env store).1.programmes = []) ∧
      ((env.isStale || force) = false →
        fillDbProgrammes force env store = (store, [])) ∧
      (fillDbFromXMLTV force env store).1 = store ∧
      Action.clearChannelsOp ∉ (fillDbFromXMLTV force env store).2 ∧
      Action.addChannelsOp ∉ (fillDbFromXMLTV force env store).2 ∧
      Action.clearProgrammesOp ∉ (fillDbFromXMLTV force env store).2 ∧
      Action.addProgrammesOp ∉ (fillDbFromXMLTV force env store).2) ∧
    (env.parsedFull.channels = [] →
      Action.clearChannelsOp ∉ (fillDbFromXMLTV force env store).2 ∧
      (fillDbFromXMLTV force env store).1.channels = store.channels) ∧
    (env.parsedFull.programmes = [] →
      Action.clearProgrammesOp ∉ (fillDbFromXMLTV force env store).2 ∧
      (fillDbFromXMLTV force env store).1.programmes = store.programmes) := by
  refine ⟨?_, ?_, ?_⟩
  · intro hfail
    have hxmltv : (fillDbFromXMLTV force env store).1 = store ∧
        ∀ a ∈ (fillDbFromXMLTV force env store).2, a = Action.fetchXmltv := by
      by_cases hx : (!env.isStale && !force) = true
      · simp [fillDbFromXMLTV, hx]
      · rcases hfail with hc | hp
        · by_cases hf : (env.cachedXmltv.isNone || force) = true <;>
            simp [fillDbFromXMLTV, hx, hc, hf]
        · cases hc : effectiveXmltvContent force env with
          | none =>
            by_cases hf : (env.cachedXmltv.isNone || force) = true <;>
              simp [fillDbFromXMLTV, hx, hc, hf]
          | some s =>
            by_cases hf : (env.cachedXmltv.isNone || force) = true <;>
              simp [fillDbFromXMLTV, hx, hc, hp, hf]
    refine ⟨?_, ?_, hxmltv.1, ?_, ?_, ?_, ?_⟩
    · intro hsf
      rcases hfail with hc | hp
      · simp [fillDbProgrammes, hsf, hc]
      · cases hc : effectiveXmltvContent force env with
        | none => simp [fillDbProgrammes, hsf, hc]
        | some s => simp [fillDbProgrammes, hsf, hc, hp]
    · intro hsf
      simp [fillDbProgrammes, hsf]
    · intro hmem
      exact absurd (hxmltv.2 _ hmem) (by decide)
    · intro hmem
      exact absurd (hxmltv.2 _ hmem) (by decide)
    · intro hmem
      exact absurd (hxmltv.2 _ hmem) (by decide)
    · intro hmem
      exact absurd (hxmltv.2 _ hmem) (by decide)
  · intro hch
    by_cases hx : (!env.isStale && !force) = true
    · simp [fillDbFromXMLTV, hx]
    · cases hc : effectiveXmltvContent force env with
      | none =>
        by_cases hf : (env.cachedXmltv.isNone || force) = true <;>
          simp [fillDbFromXMLTV, hx, hc, hf]
      | some s =>
        cases hp : env.xmltvPath with
        | none =>
          by_cases hf : (env.cachedXmltv.isNone || force) = true <;>
            simp [fillDbFromXMLTV, hx, hc, hp, hf]
        | some q =>
          by_cases hf : (env.cachedXmltv.isNone || force) = true <;>
            by_cases hpr : env.parsedFull.programmes = [] <;>
            simp [fillDbFromXMLTV, hx, hc, hp, hf, hch, hpr]
  · intro hpr
    by_cases hx : (!env.isStale && !force) = true
    · simp [fillDbFromXMLTV, hx]
    · cases hc : effectiveXmltvContent force env with
      | none =>
        by_cases hf : (env.cachedXmltv.isNone || force) = true <;>
          simp [fillDbFromXMLTV, hx, hc, hf]
      | some s =>
        cases hp : env.xmltvPath with
        | none =>
          by_cases hf : (env.cachedXmltv.isNone || force) = true <;>
            simp [fillDbFromXMLTV, hx, hc, hp, hf]
        | some q =>
          by_cases hf : (env.cachedXmltv.isNone || force) = true <;>
            by_cases hch : env.parsedFull.channels = [] <;>
            simp [fillDbFromXMLTV, hx, hc, hp, hf, hch, hpr]

/-- C1 amended witness at the counterexample environment. -/
theorem fill_failure_behaviour_witness :
    (fillDbProgrammes false envFetchFail
        { channels := [], programmes := [progPrior] }).1.programmes = [] ∧
    (fillDbFromXMLTV false envFetchFail { channels := [], programmes := [progPrior] }).1 =
      { channels := [], programmes := [progPrior] } := by
  have h := (fill_failure_behaviour false envFetchFail
    { channels := [], programmes := [progPrior] }).1 (Or.inl (by decide))
  exact ⟨h.1 (by decide), h.2.2.1⟩

/-! ## C9: orchestration order, cache purge and scheduler arming -/

theorem scheduleRefresh_not_in_xmltv (force : Bool) (env : Env) (store : Store) :
    Action.scheduleRefresh ∉ (fillDbFromXMLTV force env store).2 := by
  by_cases hx : (!env.isStale && !force) = true
  · simp [fillDbFromXMLTV, hx]
  · cases hc : effectiveXmltvContent force env with
    | none =>
      by_cases hf : (env.cachedXmltv.isNone || force) = true <;>
        simp [fillDbFromXMLTV, hx, hc, hf]
    | some s =>
      cases hp : env.xmltvPath with
      | none =>
        by_cases hf : (env.cachedXmltv.isNone || force) = true <;>
          simp [fillDbFromXMLTV, hx, hc, hp, hf]
      | some q =>
        by_cases hf : (env.cachedXmltv.isNone || force) = true <;>
          by_cases hch : env.parsedFull.channels = [] <;>
          by_cases hpr : env.parsedFull.programmes = [] <;>
          simp [fillDbFromXMLTV, hx, hc, hp, hf, hch, hpr]

theorem scheduleRefresh_not_in_playlist (force : Bool) (env : Env) (store : Store) :
    Action.scheduleRefresh ∉ (fillDbChannelsFromPlaylist force env store).2 := by
  by_cases ht : truthyStr env.playlistUrl = true
  · cases hfetch : (env.cachedPlaylist.isNone || force) with
    | true =>
      cases hc : env.fetchPlaylistResult with
      | none => simp [fillDbChannelsFromPlaylist, ht, hfetch, hc]
      | some text =>
        by_cases hm : reconcile store.channels
            (parsePlaylistChannels ((splitOnChar '\n' text.data).map String.mk)) = [] <;>
          simp [fillDbChannelsFromPlaylist, ht, hfetch, hc, hm]
    | false =>
      have hor : env.cachedPlaylist.isNone = false ∧ force = false := by
        constructor
        · cases h1 : env.cachedPlaylist.isNone
          · rfl
          · rw [h1] at hfetch
            simp at hfetch
        · cases h2 : force
          · rfl
          · rw [h2] at hfetch
            simp at hfetch
      cases hc : env.cachedPlaylist with
      | none =>
        rw [hc] at hor
        simp at hor
      | some text =>
        by_cases hm : reconcile store.channels
            (parsePlaylistChannels ((splitOnChar '\n' text.data).map String.mk)) = [] <;>
          simp [fillDbChannelsFromPlaylist, ht, hc, hm, hor.2]
  · simp only [Bool.not_eq_true] at ht
    simp [fillDbChannelsFromPlaylist, ht]

/-- C9: the orchestrator's trace is the XMLTV fill's, then the playlist
fill's applied to the resulting store, then a cache purge on every run,
then — exactly when `force` is false — the scheduler arming; the XMLTV
fill is a complete no-op when the data is fresh and `force` is false,
and the playlist fill is a complete no-op when no playlist URL is
configured. -/
theorem orchestrator_sequence (force : Bool) (env : Env) (store : Store) :
    (downloadCacheAndFillDb force env store).2 =
      (fillDbFromXMLTV force env store).2 ++
      (fillDbChannelsFromPlaylist force env (fillDbFromXMLTV force env store).1).2 ++
      [Action.clearCacheOp] ++ (if force then [] else [Action.scheduleRefresh]) ∧
    (downloadCacheAndFillDb force env store).1 =
      (fillDbChannelsFromPlaylist force env (fillDbFromXMLTV force env store).1).1 ∧
    (env.isStale = false → force = false → fillDbFromXMLTV force env store = (store, [])) ∧
    (truthyStr env.playlistUrl = false →
      ∀ s : Store, fillDbChannelsFromPlaylist force env s = (s, [])) ∧
    Action.clearCacheOp ∈ (downloadCacheAndFillDb force env store).2 ∧
    (Action.scheduleRefresh ∈ (downloadCacheAndFillDb force env store).2 ↔ force = false) := by
  refine ⟨rfl, rfl, ?_, ?_, ?_, ?_⟩
  · intro h1 h2
    simp [fillDbFromXMLTV, h1, h2]
  · intro h s
    simp [fillDbChannelsFromPlaylist, h]
  · simp [downloadCacheAndFillDb]
  · cases force with
    | true =>
      simp [downloadCacheAndFillDb, scheduleRefresh_not_in_xmltv,
        scheduleRefresh_not_in_playlist]
    | false =>
      simp [downloadCacheAndFillDb, scheduleRefresh_not_in_xmltv,
        scheduleRefresh_not_in_playlist]

/-- C9 witness: in a quiet unforced startup the XMLTV fill is a no-op
and the scheduler is armed. -/
theorem orchestrator_sequence_witness :
    fillDbFromXMLTV false envQuiet { channels := [], programmes := [] } =
      ({ channels := [], programmes := [] }, []) ∧
    Action.scheduleRefresh ∈
      (downloadCacheAndFillDb false envQuiet { channels := [], programmes := [] }).2 := by
  have h := orchestrator_sequence false envQuiet { channels := [], programmes := [] }
  exact ⟨h.2.2.1 rfl rfl, h.2.2.2.2.2.mpr rfl⟩

end Orbiscast
